import Mathlib

/-!
Shallow embedding of the campaign dispatch engine of `src/server.js`
(MagicPro bulk mailer) together with proofs about it.

Modelling conventions.  JS numbers holding integer counters are `ℕ`; the
one genuinely fractional quantity (`MAGIC_STATS.successRate`) is `ℚ`.
`Date.now()` yields integer milliseconds, so elapsed times enter the model
as natural numbers of milliseconds supplied by a time oracle, and
`Math.round(a / b)` on nonnegative quantities is the integer
`(2*a + b) / (2*b)`.  External effects (upstream harvest fetches, SMTP
verification, `transporter.sendMail`) are modelled by oracles giving each
attempt's outcome: `none` outcomes of the send oracle mean the promise
resolved, `some msg` that it rejected with message `msg`; the harvest
oracle combines `harvester.harvest()` and `testTransporter.verify()` into
one outcome per attempt, as a failure of either is one caught failure in
the source.
-/

deriving instance DecidableEq for Except

namespace MagicPro

/-- JS `Math.round (a / b)` for nonnegative integers:
`⌊a / b + 1 / 2⌋ = (2 * a + b) / (2 * b)` with natural division.
(`b = 0` never occurs on the guarded paths of the source.) -/
def jsRoundDiv (a b : ℕ) : ℕ := (2 * a + b) / (2 * b)

/-- JS `String.prototype.trim`: strip leading and trailing whitespace. -/
def jsTrim (s : String) : String :=
  String.mk (((s.data.dropWhile Char.isWhitespace).reverse.dropWhile Char.isWhitespace).reverse)

/-- JS `s.includes('@')`. -/
def jsHasAt (s : String) : Bool := s.data.any (fun c => c = '@')

/-- JS `s.length` (the recipients of interest are ASCII, where UTF-16
units and code points agree). -/
def jsLen (s : String) : ℕ := s.data.length

/-- JS `String.prototype.split` against a single-character separator. -/
def splitOnChar (c : Char) : List Char → List (List Char)
  | [] => [[]]
  | x :: xs =>
    if x = c then [] :: splitOnChar c xs
    else
      match splitOnChar c xs with
      | [] => [[x]]
      | g :: gs => (x :: g) :: gs

/-- JS `s.split(c)` as a list of strings. -/
def jsSplit (c : Char) (s : String) : List String := (splitOnChar c s.data).map String.mk

/-- JS `email.split('@')[0]`. -/
def jsLocalPart (email : String) : String := (jsSplit '@' email).headD ""

/-- JS `email.split('@')[1]`; a missing index is `undefined`, which the
replacer would stringify to `"undefined"`. -/
def jsDomainPart (email : String) : String := ((jsSplit '@' email).drop 1).headD "undefined"

/-- JS `a || b` on an optional string: `b` when `a` is absent or empty
(falsy). -/
def jsOrStr (a : Option String) (b : String) : String :=
  match a with
  | some s => if s = "" then b else s
  | none => b

/-- JS regex `\w` character class. -/
def isWordChar (c : Char) : Bool := c.isAlphanum || c = '_'

/-- Given the characters following an opening brace pair, parse the
placeholder name as the regex engine does: the greedy run of word
characters, which must be nonempty and followed by the two closing
braces. -/
def splitPlaceholder (cs : List Char) : Option (List Char × List Char) :=
  match cs.takeWhile isWordChar, cs.dropWhile isWordChar with
  | n :: ns, '}' :: '}' :: rem => some (n :: ns, rem)
  | _, _ => none

/-- One pass of `template.replace(/\x7b\x7b(\w+)\x7d\x7d/g, replacer)`
(src/server.js lines 228-245): a single left-to-right scan; a match whose
name resolves is replaced and the replacement is not re-scanned, an
unresolved name keeps the match verbatim, and a position where no match
starts advances one character.  `fuel` bounds scan steps; each step
consumes at least one input character, so `cs.length` steps suffice. -/
def renderGo (resolve : String → Option String) : ℕ → List Char → List Char
  | 0, cs => cs
  | _ + 1, [] => []
  | fuel + 1, c :: rest =>
    if c = '{' then
      match rest with
      | '{' :: rest2 =>
        match splitPlaceholder rest2 with
        | some (name, rem) =>
          match resolve (String.mk name) with
          | some v => v.data ++ renderGo resolve fuel rem
          | none => '{' :: '{' :: (name ++ '}' :: '}' :: renderGo resolve fuel rem)
        | none => '{' :: renderGo resolve fuel rest
      | _ => '{' :: renderGo resolve fuel rest
    else c :: renderGo resolve fuel rest

/-- Full render scan of a character list. -/
def renderList (resolve : String → Option String) (cs : List Char) : List Char :=
  renderGo resolve cs.length cs

/-- Full render scan of a string. -/
def renderString (resolve : String → Option String) (s : String) : String :=
  String.mk (renderList resolve s.data)

/-- The literal text `\x7b\x7bname\x7d\x7d` of a placeholder. -/
def placeholderOf (name : String) : String :=
  String.mk ('{' :: '{' :: (name.data ++ '}' :: '}' :: []))

/-- Subject replacer of `sendBatch` (src/server.js lines 228-234). -/
def subjectResolve (dateStr : String) (sent : ℕ) (email : String) :
    String → Option String := fun key =>
  if key = "target" then some (jsLocalPart email)
  else if key = "domain" then some (jsDomainPart email)
  else if key = "id" then some (toString (sent + 1))
  else if key = "date" then some dateStr
  else none

/-- Body replacer of `sendBatch` (src/server.js lines 236-245). -/
def htmlResolve (dateStr timeStr : String) (sent : ℕ) (smtpUser : String)
    (phishLink : Option String) (email : String) : String → Option String := fun key =>
  if key = "target" then some email
  else if key = "email" then some email
  else if key = "id" then some (toString (sent + 1))
  else if key = "sender" then some smtpUser
  else if key = "phish" then some (jsOrStr phishLink "#")
  else if key = "date" then some dateStr
  else if key = "time" then some timeStr
  else none

/-- A harvested relay credential (`smtp` object of the source). -/
structure Smtp where
  user : String
  pass : String
  host : String
  port : ℕ
  secure : Bool
deriving DecidableEq

/-- An entry of `SMTP_HARVESTERS`; the fetch strategy itself is an
external effect represented by the harvest oracle. -/
structure Harvester where
  name : String
  enabled : Bool
deriving DecidableEq

/-- The template fields `sendBatch` and the launch endpoint read. -/
structure Template where
  subject : String
  html : String
  sender : Option String
  phishLink : Option String
deriving DecidableEq

/-- Per-recipient outcome classification. -/
inductive SendStatus
  | success
  | failed
  | invalid
deriving DecidableEq

/-- An element of the `results` list built by `sendBatch`. -/
structure DispatchResult where
  target : String
  status : SendStatus
  error : Option String
deriving DecidableEq

/-- The mutable `MAGIC_STATS` object (src/server.js lines 51-60); the
pure-time field `uptime` is omitted. -/
structure Stats where
  sent : ℕ
  rotations : ℕ
  errors : ℕ
  active : Bool
  speed : ℕ
  successRate : ℚ
  currentCampaign : Option String
  currentSMTP : Option String
deriving DecidableEq

/-- Initial value of `MAGIC_STATS` at process start. -/
def initialStats : Stats := ⟨0, 0, 0, false, 0, 100, none, none⟩

/-- The two built-in harvesters (src/server.js lines 63-127). -/
def SMTP_HARVESTERS : List Harvester := [⟨"GuerrillaMail", true⟩, ⟨"TempMail", true⟩]

/-- The list `SMTP_HARVESTERS.filter(h => h.enabled)`. -/
def enabledHarvesters : List Harvester := SMTP_HARVESTERS.filter (fun h => h.enabled)

/-- Environment oracle: outcomes of external calls and clock readings.
`harvest k a` is the combined harvest-and-verify outcome of attempt `a`
of the harvest call made for batch `k`; `send i` the outcome of the
`i`-th `sendMail` of the run; `batchMs`/`runMs`/`durationMs` elapsed
milliseconds; the rest are generated identifiers and formatted dates. -/
structure Oracle where
  harvest : ℕ → ℕ → Option Smtp
  send : ℕ → Option String
  batchMs : ℕ → ℕ
  runMs : ℕ → ℕ
  durationMs : ℕ
  campaignId : String
  nowStr : String
  dateStr : String
  timeStr : String

/-- Retry loop of `harvestSMTP` (src/server.js lines 162-201), counting
down the `remaining` attempts; also returns the list of selected
harvester indices (observable through the source's per-attempt logging
of `harvester.name`).  A failure increments `errors`; the final failing
attempt throws the exhausted-sources error; a success increments
`rotations`, records `currentSMTP` and returns the credential.  The
`remaining = 0` base case is the (unreachable for positive retries)
fall-through of the `for` loop, which in JS returns `undefined`. -/
def harvestGo (enabled : List Harvester) (outcome : ℕ → Option Smtp) (retries : ℕ) :
    ℕ → ℕ → Stats → Stats × List ℕ × Except String Smtp
  | 0, _, st => (st, [], Except.error "no attempts")
  | remaining + 1, attempt, st =>
    let idx := (st.rotations + attempt) % enabled.length
    match outcome attempt with
    | some smtp =>
      ({ st with rotations := st.rotations + 1,
                 currentSMTP := some ((enabled.getD idx ⟨"", true⟩).name) },
       [idx], Except.ok smtp)
    | none =>
      let st1 := { st with errors := st.errors + 1 }
      if remaining = 0 then
        (st1, [idx],
         Except.error ("All SMTP harvesters failed after " ++ toString retries ++ " attempts"))
      else
        let r := harvestGo enabled outcome retries remaining (attempt + 1) st1
        (r.1, idx :: r.2.1, r.2.2)

/-- Function `harvestSMTP(retries)` (src/server.js line 162). -/
def harvestSMTP (enabled : List Harvester) (outcome : ℕ → Option Smtp) (retries : ℕ)
    (st : Stats) : Stats × List ℕ × Except String Smtp :=
  harvestGo enabled outcome retries retries 0 st

/-- A message handed to `transporter.sendMail` (field `to` of the JS
object is `recipient` here, `to` being reserved). -/
structure Mail where
  recipient : String
  subject : String
  html : String
deriving DecidableEq

/-- Accumulated outcome of the per-recipient loop of `sendBatch`:
the `results` list, the successfully delivered mails, the stats object
and the next send-oracle index. -/
structure SendAcc where
  results : List DispatchResult
  outbox : List Mail
  stats : Stats
  ctr : ℕ
deriving DecidableEq

/-- Per-recipient loop of `sendBatch` (src/server.js lines 219-270).
A trimmed recipient without `'@'` or shorter than 5 is classified
`invalid` without consuming a send attempt; otherwise subject and body
are rendered and one send is attempted, classifying `success` or
`failed` (incrementing `sent` resp. `errors`). -/
def sendLoop (orc : Oracle) (smtp : Smtp) (tmpl : Template) :
    List String → Stats → ℕ → SendAcc
  | [], st, ctr => ⟨[], [], st, ctr⟩
  | target :: rest, st, ctr =>
    let email := jsTrim target
    if jsHasAt email = false ∨ jsLen email < 5 then
      let a := sendLoop orc smtp tmpl rest st ctr
      ⟨⟨email, SendStatus.invalid, some "Invalid email format"⟩ :: a.results,
       a.outbox, a.stats, a.ctr⟩
    else
      let subj := renderString (subjectResolve orc.dateStr st.sent email) tmpl.subject
      let body := renderString
        (htmlResolve orc.dateStr orc.timeStr st.sent smtp.user tmpl.phishLink email) tmpl.html
      match orc.send ctr with
      | none =>
        let st1 := { st with sent := st.sent + 1 }
        let a := sendLoop orc smtp tmpl rest st1 (ctr + 1)
        ⟨⟨email, SendStatus.success, none⟩ :: a.results,
         ⟨email, subj, body⟩ :: a.outbox, a.stats, a.ctr⟩
      | some msg =>
        let st1 := { st with errors := st.errors + 1 }
        let a := sendLoop orc smtp tmpl rest st1 (ctr + 1)
        ⟨⟨email, SendStatus.failed, some msg⟩ :: a.results, a.outbox, a.stats, a.ctr⟩

/-- Count `results.filter(r => r.status === 'success').length`. -/
def countSuccess (rs : List DispatchResult) : ℕ :=
  (rs.filter (fun r => decide (r.status = SendStatus.success))).length

/-- Number of `failed` entries of a result list. -/
def countFailed (rs : List DispatchResult) : ℕ :=
  (rs.filter (fun r => decide (r.status = SendStatus.failed))).length

/-- Function `sendBatch(smtp, targets, template)` (src/server.js lines 203-282):
runs the per-recipient loop, then updates `speed` (batch throughput,
`0` when no time elapsed) and recomputes `successRate` from the
cumulative counters. -/
def sendBatch (orc : Oracle) (bIdx : ℕ) (smtp : Smtp) (targets : List String)
    (tmpl : Template) (st : Stats) (ctr : ℕ) : SendAcc :=
  let a := sendLoop orc smtp tmpl targets st ctr
  let sentInBatch := countSuccess a.results
  let ms := orc.batchMs bIdx
  let speed := if 0 < ms then jsRoundDiv (sentInBatch * 1000) ms else 0
  let totalAttempts := a.stats.sent + a.stats.errors
  let rate : ℚ :=
    if 0 < totalAttempts then ((a.stats.sent : ℚ) / (totalAttempts : ℚ)) * 100 else 100
  ⟨a.results, a.outbox, { a.stats with speed := speed, successRate := rate }, a.ctr⟩

/-- Structured events written to the SSE stream and broadcast via
socket.io by the launch endpoint. -/
inductive Event
  | started (campaignId : String) (total : ℕ) (name : String)
  | progress (progressPct : ℕ) (sent : ℕ) (totalSent : ℕ) (batchLen : ℕ)
      (successful : ℕ) (failed : ℕ) (smtp : String) (speed : ℕ) (eta : ℕ)
      (currentBatch : ℕ) (totalBatches : ℕ)
  | completed (totalSent : ℕ) (totalTargets : ℕ) (successRate : ℕ) (duration : ℕ)
      (campaignId : String)
  | error (msg : String) (campaignId : String)
deriving DecidableEq

/-- Relay display `smtp.user.split('@')[1] || smtp.user.substring(0, 20) + '...'`
(src/server.js line 428). -/
def smtpDisplay (user : String) : String :=
  let d := ((jsSplit '@' user).drop 1).headD ""
  if d = "" then String.mk (user.data.take 20 ++ "...".data) else d

/-- Batch partition produced by the launch loop
(`for (let i = 0; i < N; i += batchSize)` with
`slice(i, Math.min(i + batchSize, N))`, src/server.js lines 403-404):
batch `k` is the `B`-element slice starting at `k * B`, and the loop
body runs `⌈N / B⌉` times.  (For `B = 0` the JS loop would never
terminate; the model returns `[]`.) -/
def batches {α : Type} (B : ℕ) (l : List α) : List (List α) :=
  (List.range ((l.length + B - 1) / B)).map (fun k => (l.drop (k * B)).take B)

/-- Inner `try` loop of the launch endpoint (src/server.js lines
402-442): for each batch, harvest a fresh credential (an exhausted
harvest throws out of the loop), dispatch the batch, and emit one
`progress` event.  Returns the final stats, the emitted progress
events, the run's `totalSent`, and the propagating error if any. -/
def runLoop (orc : Oracle) (tmpl : Template) (NT B : ℕ) :
    List (List String) → ℕ → ℕ → ℕ → Stats → Stats × List Event × ℕ × Option String
  | [], _, totalSent, _, st => (st, [], totalSent, none)
  | batch :: restB, k, totalSent, ctr, st =>
    match harvestSMTP enabledHarvesters (orc.harvest k) 3 st with
    | (st1, _, Except.error e) => (st1, [], totalSent, some e)
    | (st1, _, Except.ok smtp) =>
      let a := sendBatch orc k smtp batch tmpl st1 ctr
      let successful := countSuccess a.results
      let totalSent1 := totalSent + successful
      let done := k * B + batch.length
      let pct := jsRoundDiv (done * 100) NT
      let ms := orc.runMs k
      let speed := if 0 < ms then jsRoundDiv (totalSent1 * 1000) ms else 0
      let remaining := NT - done
      let eta := if 0 < speed then jsRoundDiv remaining speed else 0
      let ev := Event.progress pct a.stats.sent totalSent1 batch.length successful
        (a.results.length - successful) (smtpDisplay smtp.user) speed eta (k + 1)
        ((NT + B - 1) / B)
      let r := runLoop orc tmpl NT B restB (k + 1) totalSent1 a.ctr a.stats
      (r.1, ev :: r.2.1, r.2.2.1, r.2.2.2)

/-- Response of the launch endpoint: an immediate 400 JSON error, or the
event stream of a run. -/
inductive LaunchRes
  | badRequest (msg : String)
  | stream (events : List Event)
deriving DecidableEq

/-- Whether a launch response is an event stream. -/
def LaunchRes.isStream : LaunchRes → Bool
  | LaunchRes.stream _ => true
  | LaunchRes.badRequest _ => false

/-- Whether a launch response is a synchronous 400 error. -/
def LaunchRes.isBad : LaunchRes → Bool
  | LaunchRes.stream _ => false
  | LaunchRes.badRequest _ => true

/-- Request body of `POST /api/launch`; `targets` is a newline string or
an array, absent fields are `none` (`batchSize` defaults to 25 at the
destructuring). -/
structure LaunchReq where
  targets : Option (String ⊕ List String)
  template : Option Template
  batchSize : Option ℕ
  campaignName : Option String

/-- JS falsiness of the `targets` field: absent or the empty string
(an empty array is truthy). -/
def targetsFalsy : Option (String ⊕ List String) → Bool
  | none => true
  | some (Sum.inl s) => decide (s = "")
  | some (Sum.inr _) => false

/-- Target-list normalisation of the launch endpoint (src/server.js
lines 366-370): an array is used as-is; a string is split on newlines,
trimmed, and filtered to entries containing `'@'` of length over 5. -/
def parseTargets : String ⊕ List String → List String
  | Sum.inl s => ((jsSplit '\n' s).map jsTrim).filter (fun t => jsHasAt t && decide (5 < jsLen t))
  | Sum.inr l => l

/-- Run name `campaignName || Campaign-(Date.now())` (src/server.js line 381). -/
def campaignNameOf (orc : Oracle) (req : LaunchReq) : String :=
  jsOrStr req.campaignName ("Campaign-" ++ orc.nowStr)

/-- Endpoint `POST /api/launch` (src/server.js lines 358-476): field presence and
validation checks, then `active`/`currentCampaign` are set, the
`started` event is emitted, the batch loop runs, the terminal
`completed` or `error` event is appended, and the `finally` block
clears `active` and `currentCampaign`. -/
def launch (orc : Oracle) (st : Stats) (req : LaunchReq) : Stats × LaunchRes :=
  match req.targets, req.template with
  | some ts, some tmpl =>
    if targetsFalsy req.targets then (st, LaunchRes.badRequest "Missing required fields")
    else
      let targetList := parseTargets ts
      if targetList.length = 0 then (st, LaunchRes.badRequest "No valid email targets provided")
      else if tmpl.subject = "" ∨ tmpl.html = "" then
        (st, LaunchRes.badRequest "Invalid template format")
      else
        let B := req.batchSize.getD 25
        let name := campaignNameOf orc req
        let st1 := { st with active := true, currentCampaign := some name }
        let r := runLoop orc tmpl targetList.length B (batches B targetList) 0 0 0 st1
        let tailEvs :=
          match r.2.2.2 with
          | none =>
            [Event.completed r.2.2.1 targetList.length
              (jsRoundDiv (r.2.2.1 * 100) targetList.length)
              (jsRoundDiv orc.durationMs 1000) orc.campaignId]
          | some e => [Event.error e orc.campaignId]
        let stFin := { r.1 with active := false, currentCampaign := none }
        (stFin, LaunchRes.stream (Event.started orc.campaignId targetList.length name :: (r.2.1 ++ tailEvs)))
  | _, _ => (st, LaunchRes.badRequest "Missing required fields")

/-- The event stream of a launch (empty for a rejected request). -/
def launchEvents (orc : Oracle) (st : Stats) (req : LaunchReq) : List Event :=
  match (launch orc st req).2 with
  | LaunchRes.stream es => es
  | LaunchRes.badRequest _ => []

/-- The `totalBatches` field of a `progress` event. -/
def Event.totalBatchesOf : Event → Option ℕ
  | Event.progress _ _ _ _ _ _ _ _ _ _ tb => some tb
  | _ => none

/-- The `(sent, totalSent)` fields of a `progress` event. -/
def Event.sentTotalOf : Event → Option (ℕ × ℕ)
  | Event.progress _ s ts _ _ _ _ _ _ _ _ => some (s, ts)
  | _ => none

/-- The recipient classification condition of `sendBatch`
(src/server.js line 222): the trimmed address lacks `'@'` or is
shorter than 5 characters. -/
def invalidFormat (target : String) : Prop :=
  jsHasAt (jsTrim target) = false ∨ jsLen (jsTrim target) < 5

/-! Concrete inputs used by witnesses and counterexamples. -/

/-- A sample harvested credential. -/
def smtpW : Smtp := ⟨"u@h.io", "p", "h", 587, false⟩

/-- A minimal well-formed template. -/
def tmplW : Template := ⟨"s", "h", none, none⟩

/-- An oracle on which every harvest attempt succeeds and every send
resolves. -/
def orcOk : Oracle :=
  ⟨fun _ _ => some smtpW, fun _ => none, fun _ => 0, fun _ => 0, 0, "cid", "0", "d", "t"⟩

/-- An oracle on which every harvest attempt fails. -/
def orcFail : Oracle :=
  ⟨fun _ _ => none, fun _ => none, fun _ => 0, fun _ => 0, 0, "cid", "0", "d", "t"⟩

/-- A launch request with one valid array recipient. -/
def reqW : LaunchReq := ⟨some (Sum.inr ["a@b.cd"]), some tmplW, none, none⟩

/-- A launch request whose string target list filters to nothing. -/
def reqEmpty : LaunchReq := ⟨some (Sum.inl "nope"), some tmplW, none, none⟩

/-- A launch request missing its template field. -/
def reqNoTmpl : LaunchReq := ⟨some (Sum.inr ["a@b.cd"]), none, none, none⟩

/-- A resolver recognizing only the name `phish`. -/
def resolveW : String → Option String := fun k => if k = "phish" then some "X" else none

/-! Renderer lemmas and verification results. -/


/-- The scan of the empty character list is empty at every fuel. -/
theorem renderGo_nil (resolve : String → Option String) (fuel : ℕ) :
    renderGo resolve fuel [] = [] := by
  cases fuel <;> rfl

/-- Taking and dropping word characters across a word run followed by
closing braces splits exactly at the braces. -/
theorem wordRun_split (rem : List Char) :
    ∀ name : List Char, (∀ c ∈ name, isWordChar c = true) →
      (name ++ '}' :: '}' :: rem).takeWhile isWordChar = name ∧
      (name ++ '}' :: '}' :: rem).dropWhile isWordChar = '}' :: '}' :: rem := by
  intro name
  induction name with
  | nil =>
    intro _
    have hbr : isWordChar '}' = false := by decide
    constructor <;> simp [List.takeWhile_cons, List.dropWhile_cons, hbr]
  | cons a as ih =>
    intro hw
    have ha : isWordChar a = true := hw a (by simp)
    have ih' := ih (fun c hc => hw c (List.mem_cons_of_mem a hc))
    constructor <;>
      simp [List.takeWhile_cons, List.dropWhile_cons, ha, ih'.1, ih'.2]

/-- A successful placeholder parse decomposes its input. -/
theorem splitPlaceholder_eq {cs name rem : List Char}
    (h : splitPlaceholder cs = some (name, rem)) :
    cs = name ++ '}' :: '}' :: rem ∧ name ≠ [] := by
  unfold splitPlaceholder at h
  split at h
  case h_1 n ns rem' heq1 heq2 =>
    obtain ⟨rfl, rfl⟩ : n :: ns = name ∧ rem' = rem := by simpa using h
    refine ⟨?_, by simp⟩
    conv_lhs => rw [← List.takeWhile_append_dropWhile isWordChar cs]
    rw [heq1, heq2]
  case h_2 => exact absurd h (by simp)

/-- A successful placeholder parse leaves a strictly shorter remainder. -/
theorem splitPlaceholder_length {cs name rem : List Char}
    (h : splitPlaceholder cs = some (name, rem)) :
    rem.length + 3 ≤ cs.length := by
  obtain ⟨rfl, hn⟩ := splitPlaceholder_eq h
  rcases name with _ | ⟨n, ns⟩
  · exact absurd rfl hn
  · simp [List.length_append]

/-- Parsing the text of a well-formed placeholder succeeds. -/
theorem splitPlaceholder_build (name rem : List Char) (hne : name ≠ [])
    (hw : ∀ c ∈ name, isWordChar c = true) :
    splitPlaceholder (name ++ '}' :: '}' :: rem) = some (name, rem) := by
  have key := wordRun_split rem name hw
  rcases name with _ | ⟨n, ns⟩
  · exact absurd rfl hne
  · unfold splitPlaceholder
    rw [key.1, key.2]
    rfl

/-- A resolver with no matching context key leaves every character of
the input in place: the scan is the identity. -/
theorem renderGo_none : ∀ (fuel : ℕ) (cs : List Char),
    renderGo (fun _ => none) fuel cs = cs := by
  intro fuel cs
  induction fuel, cs using renderGo.induct (fun _ => none) with
  | case1 cs => rfl
  | case2 n => rfl
  | case3 fuel rest2 name rem hsp s hres ih => simp at hres
  | case4 fuel rest2 name rem hsp hres ih =>
    obtain ⟨rfl, -⟩ := splitPlaceholder_eq hsp
    simp [renderGo, hsp, ih]
  | case5 fuel rest2 hsp ih => simp [renderGo, hsp, ih]
  | case6 fuel rest hne ih =>
    rcases rest with _ | ⟨c2, r2⟩
    · simp [renderGo, renderGo_nil]
    · have hc2 : ¬ c2 = '{' := fun h => hne r2 (by rw [h])
      simp [renderGo, hc2, ih]
  | case7 fuel c rest hc ih => simp [renderGo, hc, ih]

/-- The scan does not depend on the fuel bound once it covers the input
length (each step consumes at least one character). -/
theorem renderGo_fuel (resolve : String → Option String) :
    ∀ (fuel : ℕ) (cs : List Char) (fuel' : ℕ), cs.length ≤ fuel → cs.length ≤ fuel' →
      renderGo resolve fuel cs = renderGo resolve fuel' cs := by
  intro fuel cs
  induction fuel, cs using renderGo.induct resolve with
  | case1 cs =>
    intro fuel' h _
    have hnil : cs = [] := by cases cs <;> simp_all
    subst hnil
    rw [renderGo_nil, renderGo_nil]
  | case2 n => intro fuel' _ _; rw [renderGo_nil, renderGo_nil]
  | case3 fuel rest2 name rem hsp s hres ih =>
    intro fuel' h h'
    rcases fuel' with _ | fuel'
    · simp at h'
    · have hlen := splitPlaceholder_length hsp
      simp only [List.length_cons] at h h'
      simp [renderGo, hsp, hres, ih fuel' (by omega) (by omega)]
  | case4 fuel rest2 name rem hsp hres ih =>
    intro fuel' h h'
    rcases fuel' with _ | fuel'
    · simp at h'
    · have hlen := splitPlaceholder_length hsp
      simp only [List.length_cons] at h h'
      simp [renderGo, hsp, hres, ih fuel' (by omega) (by omega)]
  | case5 fuel rest2 hsp ih =>
    intro fuel' h h'
    rcases fuel' with _ | fuel'
    · simp at h'
    · simp only [List.length_cons] at h h'
      simp [renderGo, hsp, ih fuel' (by simp; omega) (by simp; omega)]
  | case6 fuel rest hne ih =>
    intro fuel' h h'
    rcases fuel' with _ | fuel'
    · simp at h'
    · simp only [List.length_cons] at h h'
      rcases rest with _ | ⟨c2, r2⟩
      · simp [renderGo, renderGo_nil]
      · have hc2 : ¬ c2 = '{' := fun hq => hne r2 (by rw [hq])
        simp only [List.length_cons] at h h'
        simp [renderGo, hc2, ih fuel' (by simp; omega) (by simp; omega)]
  | case7 fuel c rest hc ih =>
    intro fuel' h h'
    rcases fuel' with _ | fuel'
    · simp at h'
    · simp only [List.length_cons] at h h'
      simp [renderGo, hc, ih fuel' (by omega) (by omega)]

/-- A placeholder whose name resolves is replaced by the value verbatim
and scanning resumes after the closing braces: the replacement is
never re-scanned. -/
theorem renderList_resolved (resolve : String → Option String) (name : List Char) (v : String)
    (rem : List Char) (hne : name ≠ []) (hw : ∀ c ∈ name, isWordChar c = true)
    (hres : resolve (String.mk name) = some v) :
    renderList resolve ('{' :: '{' :: (name ++ '}' :: '}' :: rem)) =
      v.data ++ renderList resolve rem := by
  have hsp := splitPlaceholder_build name rem hne hw
  unfold renderList
  have hlen : ('{' :: '{' :: (name ++ '}' :: '}' :: rem)).length =
      (name.length + rem.length + 3) + 1 := by
    simp [List.length_append]
    omega
  rw [hlen]
  simp only [renderGo, if_pos, hsp, hres]
  rw [renderGo_fuel resolve (name.length + rem.length + 3) rem rem.length (by omega) le_rfl]

/-- C7: rendering with no matching context key is the identity (unknown
placeholders round-trip verbatim), hence rendering twice with the same
unmatched names is idempotent; and a resolved placeholder is replaced
by its value verbatim with scanning resuming after the closing
braces, so replacement values are never re-scanned for further
placeholders. -/
theorem c7_render_unresolved_passthrough :
    (∀ s : String, renderString (fun _ => none) s = s) ∧
    (∀ s : String,
      renderString (fun _ => none) (renderString (fun _ => none) s) =
        renderString (fun _ => none) s) ∧
    (∀ (resolve : String → Option String) (name v rem : String),
      name.data ≠ [] → (∀ c ∈ name.data, isWordChar c = true) →
      resolve name = some v →
      renderString resolve (placeholderOf name ++ rem) = v ++ renderString resolve rem) := by
  have hid : ∀ s : String, renderString (fun _ => none) s = s := by
    intro s
    unfold renderString renderList
    rw [renderGo_none]
  refine ⟨hid, fun s => by rw [hid, hid], ?_⟩
  intro resolve name v rem hne hw hres
  obtain ⟨vd⟩ := v
  unfold renderString
  have hdata : (placeholderOf name ++ rem).data =
      '{' :: '{' :: (name.data ++ '}' :: '}' :: rem.data) := by
    simp [placeholderOf, String.data_append]
  rw [hdata]
  have hname : String.mk name.data = name := by cases name; rfl
  rw [renderList_resolved resolve name.data ⟨vd⟩ rem.data hne hw (by rw [hname]; exact hres)]
  rfl

/-- Success count of a cons result list. -/
theorem countSuccess_cons (r : DispatchResult) (rs : List DispatchResult) :
    countSuccess (r :: rs) =
      (if r.status = SendStatus.success then 1 else 0) + countSuccess rs := by
  simp only [countSuccess, List.filter_cons]
  split_ifs with h <;> simp_all [Nat.add_comm]

/-- Failure count of a cons result list. -/
theorem countFailed_cons (r : DispatchResult) (rs : List DispatchResult) :
    countFailed (r :: rs) =
      (if r.status = SendStatus.failed then 1 else 0) + countFailed rs := by
  simp only [countFailed, List.filter_cons]
  split_ifs with h <;> simp_all [Nat.add_comm]

/-- Bookkeeping of the per-recipient loop: one result per recipient,
`sent` grows by the number of `success` results, `errors` by the
number of `failed` results, and all other stats fields are
untouched. -/
theorem sendLoop_spec (orc : Oracle) (smtp : Smtp) (tmpl : Template) :
    ∀ (targets : List String) (st : Stats) (ctr : ℕ),
      (sendLoop orc smtp tmpl targets st ctr).results.length = targets.length ∧
      (sendLoop orc smtp tmpl targets st ctr).stats.sent =
        st.sent + countSuccess (sendLoop orc smtp tmpl targets st ctr).results ∧
      (sendLoop orc smtp tmpl targets st ctr).stats.errors =
        st.errors + countFailed (sendLoop orc smtp tmpl targets st ctr).results ∧
      (sendLoop orc smtp tmpl targets st ctr).stats.rotations = st.rotations ∧
      (sendLoop orc smtp tmpl targets st ctr).stats.active = st.active ∧
      (sendLoop orc smtp tmpl targets st ctr).stats.currentCampaign = st.currentCampaign ∧
      (sendLoop orc smtp tmpl targets st ctr).stats.speed = st.speed ∧
      (sendLoop orc smtp tmpl targets st ctr).stats.successRate = st.successRate := by
  intro targets
  induction targets with
  | nil =>
    intro st ctr
    simp [sendLoop, countSuccess, countFailed]
  | cons t rest ih =>
    intro st ctr
    simp only [sendLoop]
    split_ifs with hinv
    · obtain ⟨h1, h2, h3, h4, h5, h6, h7, h8⟩ := ih st ctr
      refine ⟨by simp [h1], ?_, ?_, by simpa using h4, by simpa using h5,
        by simpa using h6, by simpa using h7, by simpa using h8⟩
      · simpa [countSuccess_cons] using h2
      · simpa [countFailed_cons] using h3
    · rcases hsend : orc.send ctr with _ | msg <;> simp only [hsend]
      · obtain ⟨h1, h2, h3, h4, h5, h6, h7, h8⟩ := ih { st with sent := st.sent + 1 } (ctr + 1)
        refine ⟨by simp [h1], ?_, ?_, by simpa using h4, by simpa using h5,
          by simpa using h6, by simpa using h7, by simpa using h8⟩
        · simp only [countSuccess_cons]
          simp at h2
          simp [h2]
          omega
        · simpa [countFailed_cons] using h3
      · obtain ⟨h1, h2, h3, h4, h5, h6, h7, h8⟩ := ih { st with errors := st.errors + 1 } (ctr + 1)
        refine ⟨by simp [h1], ?_, ?_, by simpa using h4, by simpa using h5,
          by simpa using h6, by simpa using h7, by simpa using h8⟩
        · simpa [countSuccess_cons] using h2
        · simp only [countFailed_cons]
          simp at h3
          simp [h3]
          omega

/-- The i-th result of the per-recipient loop is `invalid` exactly when
the i-th recipient violates the format condition of line 222. -/
theorem sendLoop_classify (orc : Oracle) (smtp : Smtp) (tmpl : Template) :
    ∀ (targets : List String) (st : Stats) (ctr : ℕ) (i : ℕ) (r : DispatchResult) (t : String),
      (sendLoop orc smtp tmpl targets st ctr).results.get? i = some r →
      targets.get? i = some t →
      (r.status = SendStatus.invalid ↔ invalidFormat t) := by
  intro targets
  induction targets with
  | nil => intro st ctr i r t hr ht; simp at ht
  | cons t0 rest ih =>
    intro st ctr i r t hr ht
    simp only [sendLoop] at hr
    split_ifs at hr with hinv
    · match i with
      | 0 =>
        simp at hr ht
        subst ht
        rw [← hr]
        simpa [invalidFormat] using hinv
      | Nat.succ j =>
        simp only [List.get?_cons_succ] at hr ht
        exact ih st ctr j r t hr ht
    · rcases hsend : orc.send ctr with _ | msg <;> rw [hsend] at hr
      · match i with
        | 0 =>
          simp at hr ht
          subst ht
          rw [← hr]
          simp [invalidFormat]
          simpa using hinv
        | Nat.succ j =>
          simp only [List.get?_cons_succ] at hr ht
          exact ih _ _ j r t hr ht
      · match i with
        | 0 =>
          simp at hr ht
          subst ht
          rw [← hr]
          simp [invalidFormat]
          simpa using hinv
        | Nat.succ j =>
          simp only [List.get?_cons_succ] at hr ht
          exact ih _ _ j r t hr ht

/-- Bookkeeping of `sendBatch`: the results are those of the loop, and
the counter updates carry over (the epilogue only writes `speed` and
`successRate`). -/
theorem sendBatch_spec (orc : Oracle) (bIdx : ℕ) (smtp : Smtp) (targets : List String)
    (tmpl : Template) (st : Stats) (ctr : ℕ) :
    (sendBatch orc bIdx smtp targets tmpl st ctr).results =
      (sendLoop orc smtp tmpl targets st ctr).results ∧
    (sendBatch orc bIdx smtp targets tmpl st ctr).stats.sent =
      st.sent + countSuccess (sendBatch orc bIdx smtp targets tmpl st ctr).results ∧
    (sendBatch orc bIdx smtp targets tmpl st ctr).stats.errors =
      st.errors + countFailed (sendBatch orc bIdx smtp targets tmpl st ctr).results ∧
    (sendBatch orc bIdx smtp targets tmpl st ctr).results.length = targets.length ∧
    (sendBatch orc bIdx smtp targets tmpl st ctr).stats.rotations = st.rotations ∧
    (sendBatch orc bIdx smtp targets tmpl st ctr).stats.active = st.active ∧
    (sendBatch orc bIdx smtp targets tmpl st ctr).stats.currentCampaign = st.currentCampaign := by
  obtain ⟨h1, h2, h3, h4, h5, h6, h7, h8⟩ := sendLoop_spec orc smtp tmpl targets st ctr
  unfold sendBatch
  exact ⟨rfl, h2, h3, h1, h4, h5, h6⟩

/-- Bookkeeping of the harvest retry loop: `rotations` grows by one
exactly on success, `sent` and the campaign fields are untouched,
and the k-th selected index is `(rotations + attempt + k) mod n`. -/
theorem harvestGo_spec (enabled : List Harvester) (outcome : ℕ → Option Smtp) (retries : ℕ) :
    ∀ (fuel attempt : ℕ) (st : Stats),
      (harvestGo enabled outcome retries fuel attempt st).1.rotations =
        st.rotations + (match (harvestGo enabled outcome retries fuel attempt st).2.2 with
          | Except.ok _ => 1
          | Except.error _ => 0) ∧
      (harvestGo enabled outcome retries fuel attempt st).1.sent = st.sent ∧
      (harvestGo enabled outcome retries fuel attempt st).1.active = st.active ∧
      (harvestGo enabled outcome retries fuel attempt st).1.currentCampaign = st.currentCampaign ∧
      (harvestGo enabled outcome retries fuel attempt st).1.successRate = st.successRate ∧
      (harvestGo enabled outcome retries fuel attempt st).1.speed = st.speed ∧
      ∀ (k v : ℕ), (harvestGo enabled outcome retries fuel attempt st).2.1.get? k = some v →
        v = (st.rotations + (attempt + k)) % enabled.length := by
  intro fuel
  induction fuel with
  | zero =>
    intro attempt st
    refine ⟨rfl, rfl, rfl, rfl, rfl, rfl, ?_⟩
    intro k v hv
    simp [harvestGo] at hv
  | succ fuel ih =>
    intro attempt st
    simp only [harvestGo]
    rcases hout : outcome attempt with _ | smtp
    · split_ifs with hrem
      · refine ⟨rfl, rfl, rfl, rfl, rfl, rfl, ?_⟩
        intro k v hv
        match k with
        | 0 =>
          simp only [List.get?_cons_zero, Option.some.injEq] at hv
          subst hv
          simp
        | Nat.succ j => simp at hv
      · obtain ⟨g1, g2, g3, g4, g5, g6, g7⟩ := ih (attempt + 1) { st with errors := st.errors + 1 }
        refine ⟨by simpa using g1, by simpa using g2, by simpa using g3, by simpa using g4,
          by simpa using g5, by simpa using g6, ?_⟩
        intro k v hv
        match k with
        | 0 =>
          simp only [List.get?_cons_zero, Option.some.injEq] at hv
          subst hv
          simp
        | Nat.succ j =>
          simp only [List.get?_cons_succ] at hv
          have h7 := g7 j v hv
          have hred : ({ st with errors := st.errors + 1 } : Stats).rotations = st.rotations := rfl
          rw [hred] at h7
          rw [h7]
          congr 1
          omega
    · refine ⟨by simp, by simp, by simp, by simp, by simp, by simp, ?_⟩
      intro k v hv
      match k with
      | 0 =>
        simp only [List.get?_cons_zero, Option.some.injEq] at hv
        subst hv
        simp
      | Nat.succ j => simp at hv

/-- When every attempt fails, the harvest loop increments `errors` once
per attempt, logs the rotated indices in order, and throws the
exhausted-sources error naming the configured retry count. -/
theorem harvestGo_fail (enabled : List Harvester) (outcome : ℕ → Option Smtp) (retries : ℕ) :
    ∀ (fuel attempt : ℕ) (st : Stats), 0 < fuel →
      (∀ k, k < fuel → outcome (attempt + k) = none) →
      harvestGo enabled outcome retries fuel attempt st =
        ({ st with errors := st.errors + fuel },
         (List.range fuel).map (fun k => (st.rotations + (attempt + k)) % enabled.length),
         Except.error ("All SMTP harvesters failed after " ++ toString retries ++ " attempts")) := by
  intro fuel
  induction fuel with
  | zero => intro attempt st h; omega
  | succ fuel ih =>
    intro attempt st _ hall
    have h0 : outcome attempt = none := by simpa using hall 0 (by omega)
    simp only [harvestGo, h0]
    rcases Nat.eq_zero_or_pos fuel with hf | hf
    · subst hf
      simp [List.range_succ]
    · rw [if_neg (by omega)]
      rw [ih (attempt + 1) { st with errors := st.errors + 1 } hf
        (fun k hk => by
          have hx := hall (k + 1) (by omega)
          have harg : attempt + (k + 1) = attempt + 1 + k := by omega
          rw [harg] at hx
          exact hx)]
      simp only [Prod.mk.injEq]
      refine ⟨?_, ?_, trivial⟩
      · simp only [Stats.mk.injEq]
        simp
        omega
      · simp only [List.range_succ_eq_map, List.map_cons, List.map_map]
        rw [List.cons_eq_cons]
        refine ⟨by simp, ?_⟩
        apply List.map_congr_left
        intro k _
        simp only [Function.comp_apply]
        congr 1
        omega

/-- Flattening the first `n` slices recovers the first `n * B` items. -/
theorem flatten_batches_take {α : Type} (B : ℕ) (l : List α) :
    ∀ n : ℕ, ((List.range n).map (fun k => (l.drop (k * B)).take B)).flatten = l.take (n * B) := by
  intro n
  induction n with
  | zero => simp
  | succ n ih =>
    rw [List.range_succ, List.map_append, List.flatten_append, ih]
    simp only [List.map_cons, List.map_nil, List.flatten_cons, List.flatten_nil, List.append_nil]
    rw [Nat.succ_mul, List.take_add]

/-- The loop produces `⌈N / B⌉` batches. -/
theorem batches_length {α : Type} (B : ℕ) (l : List α) :
    (batches B l).length = (l.length + B - 1) / B := by
  simp [batches]

/-- Concatenating the batches in order recovers the recipient list:
every recipient is in exactly one batch and order is preserved. -/
theorem batches_flatten {α : Type} (B : ℕ) (l : List α) (hB : 0 < B) :
    (batches B l).flatten = l := by
  unfold batches
  rw [flatten_batches_take]
  apply List.take_of_length_le
  have hd := Nat.div_add_mod (l.length + B - 1) B
  have hm : (l.length + B - 1) % B < B := Nat.mod_lt _ hB
  have hgoal : l.length ≤ (l.length + B - 1) / B * B := by
    rw [Nat.mul_comm]
    omega
  exact hgoal

/-- Every progress event of the batch loop reports
`totalBatches = ⌈NT / B⌉`. -/
theorem runLoop_totalBatches (orc : Oracle) (tmpl : Template) (NT B : ℕ) :
    ∀ (bs : List (List String)) (k ts ctr : ℕ) (st : Stats) (e : Event),
      e ∈ (runLoop orc tmpl NT B bs k ts ctr st).2.1 →
      Event.totalBatchesOf e = some ((NT + B - 1) / B) := by
  intro bs
  induction bs with
  | nil => intro k ts ctr st e he; simp [runLoop] at he
  | cons b restB ih =>
    intro k ts ctr st e he
    simp only [runLoop] at he
    rcases hh : harvestSMTP enabledHarvesters (orc.harvest k) 3 st with ⟨st1, log, res⟩
    rw [hh] at he
    rcases res with msg | smtp
    · simp at he
    · simp only [List.mem_cons] at he
      rcases he with rfl | he
      · rfl
      · exact ih _ _ _ _ e he

/-- Loop invariant: when the loop starts with `stats.sent = base + totalSent`,
every progress event it emits has `sent = base + totalSent`. -/
theorem runLoop_sent (orc : Oracle) (tmpl : Template) (NT B : ℕ) :
    ∀ (bs : List (List String)) (k ts ctr : ℕ) (st : Stats) (base : ℕ),
      st.sent = base + ts →
      ∀ (e : Event), e ∈ (runLoop orc tmpl NT B bs k ts ctr st).2.1 →
      ∀ (p : ℕ × ℕ), e.sentTotalOf = some p → p.1 = base + p.2 := by
  intro bs
  induction bs with
  | nil => intro k ts ctr st base hbase e he; simp [runLoop] at he
  | cons b restB ih =>
    intro k ts ctr st base hbase e he p hp
    simp only [runLoop] at he
    rcases hh : harvestSMTP enabledHarvesters (orc.harvest k) 3 st with ⟨st1, log, res⟩
    rw [hh] at he
    have hst1 : st1.sent = st.sent := by
      have hs := (harvestGo_spec enabledHarvesters (orc.harvest k) 3 3 0 st).2.1
      unfold harvestSMTP at hh
      rw [hh] at hs
      exact hs
    rcases res with msg | smtp
    · simp at he
    · have hbs := sendBatch_spec orc k smtp b tmpl st1 ctr
      simp only [List.mem_cons] at he
      rcases he with rfl | he
      · simp only [Event.sentTotalOf, Option.some.injEq] at hp
        rw [← hp]
        simp only []
        rw [hbs.2.1, hst1, hbase]
        omega
      · exact ih (k + 1) _ _ _ base (by rw [hbs.2.1, hst1, hbase]; omega) e he p hp

/-- C9: on every terminal path of a run the orchestrator clears the
`active` flag and the current-campaign identifier (the `finally`
block), and a rejected request leaves the stats object untouched, so
no path leaves a run with `active` still true after it has ended. -/
theorem c9_terminal_paths_clear_state :
    ∀ (orc : Oracle) (st : Stats) (req : LaunchReq),
      ((launch orc st req).2.isStream = true →
        (launch orc st req).1.active = false ∧ (launch orc st req).1.currentCampaign = none) ∧
      (∀ msg, (launch orc st req).2 = LaunchRes.badRequest msg → (launch orc st req).1 = st) := by
  intro orc st req
  obtain ⟨tg, tp, bsz, cn⟩ := req
  rcases tg with _ | ts
  · exact ⟨fun h => by simp [launch, LaunchRes.isStream] at h, fun msg h => rfl⟩
  · rcases tp with _ | tmpl
    · exact ⟨fun h => by simp [launch, LaunchRes.isStream] at h, fun msg h => rfl⟩
    · simp only [launch]
      split_ifs with h1 h2 h3
      · exact ⟨fun h => by simp [LaunchRes.isStream] at h, fun msg h => rfl⟩
      · exact ⟨fun h => by simp [LaunchRes.isStream] at h, fun msg h => rfl⟩
      · exact ⟨fun h => by simp [LaunchRes.isStream] at h, fun msg h => rfl⟩
      · exact ⟨fun _ => ⟨rfl, rfl⟩, fun msg h => by simp at h⟩

/-- C3: when the recipient list is empty after filtering, or the
template lacks a populated subject or body, the launch request fails
synchronously with an input-validation error: the stats object is
unchanged, the response is a 400 error, no event is emitted, and the
outcome does not depend on the environment oracle (no credential is
acquired). -/
theorem c3_validation_fails_fast :
    ∀ (orc orc2 : Oracle) (st : Stats) (req : LaunchReq) (ts : String ⊕ List String)
      (tmpl : Template),
      req.targets = some ts → req.template = some tmpl →
      (parseTargets ts = [] ∨ tmpl.subject = "" ∨ tmpl.html = "") →
      (launch orc st req).1 = st ∧ (launch orc st req).2.isBad = true ∧
      launch orc st req = launch orc2 st req ∧ launchEvents orc st req = [] := by
  intro orc orc2 st req ts tmpl hts htp hbad
  obtain ⟨tg, tp, bsz, cn⟩ := req
  simp only at hts htp
  subst hts
  subst htp
  by_cases hf : targetsFalsy (some ts) = true
  · simp [launch, launchEvents, LaunchRes.isBad, hf]
  · replace hf : targetsFalsy (some ts) = false := by simpa using hf
    by_cases h0 : (parseTargets ts).length = 0
    · simp [launch, launchEvents, LaunchRes.isBad, hf, h0]
    · have hb : tmpl.subject = "" ∨ tmpl.html = "" := by
        rcases hbad with hb | hb
        · exact absurd (by rw [hb]; rfl) h0
        · exact hb
      simp [launch, launchEvents, LaunchRes.isBad, hf, h0, hb]

/-- C10: in every progress event the `sent` field equals the pre-launch
process-wide `GlobalStats.sent` counter plus the run-local
`totalSent` field, so the two coincide exactly when no prior run has
sent anything. -/
theorem c10_progress_sent_fields :
    ∀ (orc : Oracle) (st : Stats) (req : LaunchReq) (e : Event) (p : ℕ × ℕ),
      e ∈ launchEvents orc st req → e.sentTotalOf = some p →
      p.1 = st.sent + p.2 ∧ (p.1 = p.2 ↔ st.sent = 0) := by
  intro orc st req e p he hp
  obtain ⟨tg, tp, bsz, cn⟩ := req
  rcases tg with _ | ts
  · simp [launchEvents, launch] at he
  · rcases tp with _ | tmpl
    · simp [launchEvents, launch] at he
    · simp only [launchEvents, launch] at he
      split_ifs at he with h1 h2 h3
      · simp at he
      · simp at he
      · simp at he
      · simp only [List.mem_cons, List.mem_append] at he
        have hmain : p.1 = st.sent + p.2 := by
          rcases he with rfl | he
          · simp [Event.sentTotalOf] at hp
          rcases he with he | he
          · exact runLoop_sent orc tmpl _ _ _ 0 0 0 _ st.sent (by simp) e he p hp
          · split at he <;> simp at he <;> subst he <;> simp [Event.sentTotalOf] at hp
        exact ⟨hmain, by omega⟩

/-- C5: when all three attempts of the first harvest call fail on a
validated launch, the run emits exactly a `started` event followed by
an `error` event naming the attempt count, the `active` flag ends
false, the campaign identifier is cleared, and `errors` grew by the
three failed attempts. -/
theorem c5_exhausted_sources_error :
    ∀ (orc : Oracle) (st : Stats) (req : LaunchReq) (ts : String ⊕ List String) (tmpl : Template),
      req.targets = some ts → req.template = some tmpl →
      targetsFalsy (some ts) = false →
      parseTargets ts ≠ [] → tmpl.subject ≠ "" → tmpl.html ≠ "" →
      0 < req.batchSize.getD 25 →
      (∀ k, k < 3 → orc.harvest 0 k = none) →
      (launch orc st req).2 = LaunchRes.stream
        [Event.started orc.campaignId (parseTargets ts).length (campaignNameOf orc req),
         Event.error "All SMTP harvesters failed after 3 attempts" orc.campaignId] ∧
      (launch orc st req).1.active = false ∧
      (launch orc st req).1.currentCampaign = none ∧
      (launch orc st req).1.errors = st.errors + 3 := by
  intro orc st req ts tmpl hts htp hf hne hsub hhtml hB hfail
  obtain ⟨tg, tp, bsz, cn⟩ := req
  simp only at hts htp hB
  subst hts
  subst htp
  have hmsg : "All SMTP harvesters failed after " ++ toString (3 : ℕ) ++ " attempts" =
      "All SMTP harvesters failed after 3 attempts" := by decide
  have hN : 0 < (parseTargets ts).length :=
    Nat.pos_of_ne_zero (by simpa [List.length_eq_zero] using hne)
  have hlen1 : 0 < (batches (bsz.getD 25) (parseTargets ts)).length := by
    rw [batches_length]
    have hBpos : 0 < bsz.getD 25 := hB
    have := Nat.div_add_mod ((parseTargets ts).length + bsz.getD 25 - 1) (bsz.getD 25)
    have hm := Nat.mod_lt ((parseTargets ts).length + bsz.getD 25 - 1) hBpos
    rcases Nat.eq_zero_or_pos (((parseTargets ts).length + bsz.getD 25 - 1) / bsz.getD 25)
      with hq | hq
    · rw [hq] at this
      omega
    · exact hq
  rcases hbs : batches (bsz.getD 25) (parseTargets ts) with _ | ⟨b0, bs'⟩
  · rw [hbs] at hlen1
    simp at hlen1
  · have hharv : ∀ st0 : Stats,
        harvestSMTP enabledHarvesters (orc.harvest 0) 3 st0 =
          ({ st0 with errors := st0.errors + 3 },
           (List.range 3).map (fun k => (st0.rotations + (0 + k)) % enabledHarvesters.length),
           Except.error ("All SMTP harvesters failed after " ++ toString (3 : ℕ) ++ " attempts")) := by
      intro st0
      unfold harvestSMTP
      exact harvestGo_fail enabledHarvesters (orc.harvest 0) 3 3 0 st0 (by omega)
        (fun k hk => by simpa using hfail k hk)
    simp only [launch, hbs, runLoop, hharv]
    rw [if_neg (by simp [hf]), if_neg (by simpa [List.length_eq_zero] using hne),
      if_neg (by simp [hsub, hhtml])]
    refine ⟨?_, rfl, rfl, rfl⟩
    simp [hmsg]

/-- C1 (amended): after every `sendBatch` call, `successRate` equals
`100 * sent / (sent + errors)` when `sent + errors > 0`, else `100`.
(The original claim also asserted this after every `harvestSMTP`
attempt; `c1_counterexample` refutes that part, since `harvestSMTP`
increments `errors` without recomputing `successRate`.) -/
theorem c1_successRate_recomputed_by_sendBatch :
    ∀ (orc : Oracle) (bIdx : ℕ) (smtp : Smtp) (targets : List String) (tmpl : Template)
      (st : Stats) (ctr : ℕ),
      (sendBatch orc bIdx smtp targets tmpl st ctr).stats.successRate =
        if 0 < (sendBatch orc bIdx smtp targets tmpl st ctr).stats.sent +
            (sendBatch orc bIdx smtp targets tmpl st ctr).stats.errors then
          100 * ((sendBatch orc bIdx smtp targets tmpl st ctr).stats.sent : ℚ) /
            (((sendBatch orc bIdx smtp targets tmpl st ctr).stats.sent : ℚ) +
              ((sendBatch orc bIdx smtp targets tmpl st ctr).stats.errors : ℚ))
        else 100 := by
  intro orc bIdx smtp targets tmpl st ctr
  unfold sendBatch
  simp only []
  split_ifs with h
  · push_cast
    ring
  · rfl

/-- C1 (counterexample): starting from the initial stats, a
`harvestSMTP` call whose three attempts all fail leaves
`sent + errors = 3 > 0` while `successRate` is still `100`, not
`100 * 0 / 3 = 0`: the invariant does not hold after `harvestSMTP`
attempts. -/
theorem c1_counterexample :
    0 < (harvestSMTP enabledHarvesters (fun _ => none) 3 initialStats).1.sent +
        (harvestSMTP enabledHarvesters (fun _ => none) 3 initialStats).1.errors ∧
    (harvestSMTP enabledHarvesters (fun _ => none) 3 initialStats).1.successRate ≠
      100 * ((harvestSMTP enabledHarvesters (fun _ => none) 3 initialStats).1.sent : ℚ) /
        (((harvestSMTP enabledHarvesters (fun _ => none) 3 initialStats).1.sent : ℚ) +
          ((harvestSMTP enabledHarvesters (fun _ => none) 3 initialStats).1.errors : ℚ)) := by
  constructor
  · decide
  · have hs : (harvestSMTP enabledHarvesters (fun _ => none) 3 initialStats).1.sent = 0 := by
      decide
    have he : (harvestSMTP enabledHarvesters (fun _ => none) 3 initialStats).1.errors = 3 := by
      decide
    have hr : (harvestSMTP enabledHarvesters (fun _ => none) 3 initialStats).1.successRate =
        100 := by decide
    rw [hs, he, hr]
    norm_num

/-- C4 (counterexample): a batch over the single bad-format recipient
`"bad"` records an `invalid` result but leaves `GlobalStats.errors`
unchanged, refuting the claim that a bad address format is counted in
`errors`. -/
theorem c4_counterexample :
    (sendBatch orcOk 0 smtpW ["bad"] tmplW initialStats 0).results =
      [⟨"bad", SendStatus.invalid, some "Invalid email format"⟩] ∧
    (sendBatch orcOk 0 smtpW ["bad"] tmplW initialStats 0).stats.errors = initialStats.errors := by
  constructor <;> decide

/-- C4 (amended): every recipient of a batch yields exactly one result
(a failure never aborts the batch), `sent` grows by the number of
`success` results, and `errors` grows by the number of `failed`
results only: `invalid` results are recorded but not counted in
`errors`. -/
theorem c4_per_recipient_error_accounting :
    ∀ (orc : Oracle) (bIdx : ℕ) (smtp : Smtp) (targets : List String) (tmpl : Template)
      (st : Stats) (ctr : ℕ),
      (sendBatch orc bIdx smtp targets tmpl st ctr).results.length = targets.length ∧
      (sendBatch orc bIdx smtp targets tmpl st ctr).stats.sent =
        st.sent + countSuccess (sendBatch orc bIdx smtp targets tmpl st ctr).results ∧
      (sendBatch orc bIdx smtp targets tmpl st ctr).stats.errors =
        st.errors + countFailed (sendBatch orc bIdx smtp targets tmpl st ctr).results := by
  intro orc bIdx smtp targets tmpl st ctr
  obtain ⟨h1, h2, h3, h4, -⟩ := sendBatch_spec orc bIdx smtp targets tmpl st ctr
  exact ⟨h4, h2, h3⟩

/-- C2 (amended): `sendBatch` classifies a recipient `invalid` exactly
when its trimmed form lacks `'@'` or is shorter than 5; the launch
endpoint pre-filter is a different rule: it applies only to
newline-string target lists (arrays pass through unfiltered) and
keeps exactly the trimmed entries containing `'@'` of length
strictly greater than 5. -/
theorem c2_validity_rules :
    (∀ (orc : Oracle) (bIdx : ℕ) (smtp : Smtp) (targets : List String) (tmpl : Template)
       (st : Stats) (ctr : ℕ) (i : ℕ) (r : DispatchResult) (t : String),
      (sendBatch orc bIdx smtp targets tmpl st ctr).results.get? i = some r →
      targets.get? i = some t →
      (r.status = SendStatus.invalid ↔ invalidFormat t)) ∧
    (∀ (s t : String), t ∈ parseTargets (Sum.inl s) ↔
      (t ∈ (jsSplit '\n' s).map jsTrim ∧ jsHasAt t = true ∧ 5 < jsLen t)) ∧
    (∀ l : List String, parseTargets (Sum.inr l) = l) := by
  refine ⟨?_, ?_, fun l => rfl⟩
  · intro orc bIdx smtp targets tmpl st ctr i r t hr ht
    rw [(sendBatch_spec orc bIdx smtp targets tmpl st ctr).1] at hr
    exact sendLoop_classify orc smtp tmpl targets st ctr i r t hr ht
  · intro s t
    simp [parseTargets, List.mem_filter]

/-- C2 (counterexample): the length-5 recipient `"a@b.c"` is classified
valid (and dispatched) by `sendBatch` yet dropped by the launch
pre-filter, so the two places do not apply one and the same validity
rule. -/
theorem c2_counterexample :
    ((sendBatch orcOk 0 smtpW ["a@b.c"] tmplW initialStats 0).results.map
      (fun r => r.status) = [SendStatus.success]) ∧
    parseTargets (Sum.inl "a@b.c") = [] := by
  constructor <;> decide

/-- C6: attempt `k` (0-indexed) of a single harvest call selects the
source at index `(R + k) mod n` where `R` is the rotation counter at
call start, and the counter increments exactly once per successful
acquisition (and not at all on failure). -/
theorem c6_rotation_indices :
    ∀ (enabled : List Harvester) (outcome : ℕ → Option Smtp) (retries : ℕ) (st : Stats),
      (∀ (k v : ℕ), (harvestSMTP enabled outcome retries st).2.1.get? k = some v →
        v = (st.rotations + k) % enabled.length) ∧
      (harvestSMTP enabled outcome retries st).1.rotations =
        st.rotations + (match (harvestSMTP enabled outcome retries st).2.2 with
          | Except.ok _ => 1
          | Except.error _ => 0) := by
  intro enabled outcome retries st
  have h := harvestGo_spec enabled outcome retries retries 0 st
  refine ⟨?_, h.1⟩
  intro k v hv
  have hk := h.2.2.2.2.2.2 k v hv
  simpa using hk

/-- C8: for batch size `B > 0` the orchestrator partitions the `N`
recipients into exactly `⌈N / B⌉` batches whose in-order
concatenation is the original list (each recipient in exactly one
batch, order preserved), and every progress event reports
`totalBatches = ⌈N / B⌉`. -/
theorem c8_batch_partition :
    ∀ (l : List String) (B : ℕ), 0 < B →
      (batches B l).length = (l.length + B - 1) / B ∧
      (batches B l).flatten = l ∧
      (∀ (orc : Oracle) (tmpl : Template) (k ts ctr : ℕ) (st : Stats) (e : Event),
        e ∈ (runLoop orc tmpl l.length B (batches B l) k ts ctr st).2.1 →
        Event.totalBatchesOf e = some ((l.length + B - 1) / B)) := by
  intro l B hB
  exact ⟨batches_length B l, batches_flatten B l hB,
    fun orc tmpl k ts ctr st e he => runLoop_totalBatches orc tmpl l.length B _ k ts ctr st e he⟩

/-- Witness for C2 at the recipient `"bad"`. -/
theorem c2_validity_rules_witness :
    ((sendBatch orcOk 0 smtpW ["bad"] tmplW initialStats 0).results.get? 0 =
      some ⟨"bad", SendStatus.invalid, some "Invalid email format"⟩) ∧ invalidFormat "bad" := by
  refine ⟨by decide, ?_⟩
  have h := c2_validity_rules.1 orcOk 0 smtpW ["bad"] tmplW initialStats 0 0
    ⟨"bad", SendStatus.invalid, some "Invalid email format"⟩ "bad" (by decide) (by decide)
  exact h.mp rfl

/-- Witness for C3 at a launch request whose targets filter to nothing. -/
theorem c3_validation_fails_fast_witness :
    (launch orcOk initialStats reqEmpty).1 = initialStats ∧
    (launch orcOk initialStats reqEmpty).2.isBad = true ∧
    launch orcOk initialStats reqEmpty = launch orcFail initialStats reqEmpty ∧
    launchEvents orcOk initialStats reqEmpty = [] :=
  c3_validation_fails_fast orcOk orcFail initialStats reqEmpty (Sum.inl "nope") tmplW rfl rfl
    (Or.inl (by decide))

/-- Witness for C5 at a concrete one-recipient launch whose harvest
oracle always fails. -/
theorem c5_exhausted_sources_error_witness :
    (launch orcFail initialStats reqW).2 = LaunchRes.stream
      [Event.started "cid" 1 "Campaign-0",
       Event.error "All SMTP harvesters failed after 3 attempts" "cid"] ∧
    (launch orcFail initialStats reqW).1.active = false ∧
    (launch orcFail initialStats reqW).1.errors = initialStats.errors + 3 := by
  have h := c5_exhausted_sources_error orcFail initialStats reqW (Sum.inr ["a@b.cd"]) tmplW
    rfl rfl (by decide) (by decide) (by decide) (by decide) (by decide)
    (fun k hk => rfl)
  refine ⟨?_, h.2.1, h.2.2.2⟩
  rw [h.1]
  decide

/-- Witness for C6 at the third attempt over the two enabled sources. -/
theorem c6_rotation_indices_witness :
    ((harvestSMTP enabledHarvesters (fun _ => none) 3 initialStats).2.1.get? 2 = some 0) ∧
    ((0 : ℕ) = (initialStats.rotations + 2) % enabledHarvesters.length) ∧
    (harvestSMTP enabledHarvesters (fun _ => none) 3 initialStats).1.rotations =
      initialStats.rotations := by
  refine ⟨by decide, ?_, ?_⟩
  · exact (c6_rotation_indices enabledHarvesters (fun _ => none) 3 initialStats).1 2 0 (by decide)
  · have h := (c6_rotation_indices enabledHarvesters (fun _ => none) 3 initialStats).2
    rw [h]
    decide

/-- Witness for C7 at an unknown placeholder and a resolved one. -/
theorem c7_render_unresolved_passthrough_witness :
    renderString (fun _ => none) ("Hi " ++ placeholderOf "name7") =
      "Hi " ++ placeholderOf "name7" ∧
    renderString resolveW (placeholderOf "phish" ++ "!") = "X" ++ renderString resolveW "!" := by
  constructor
  · exact c7_render_unresolved_passthrough.1 _
  · exact c7_render_unresolved_passthrough.2.2 resolveW "phish" "X" "!" (by decide) (by decide) (by decide)

/-- Witness for C8 at three recipients and batch size two. -/
theorem c8_batch_partition_witness :
    (batches 2 ["a", "b", "c"]).length = 2 ∧
    (batches 2 ["a", "b", "c"]).flatten = ["a", "b", "c"] := by
  have h := c8_batch_partition ["a", "b", "c"] 2 (by decide)
  exact ⟨by rw [h.1]; decide, h.2.1⟩

/-- Witness for C9 at a failing run and at a rejected request. -/
theorem c9_terminal_paths_clear_state_witness :
    ((launch orcFail initialStats reqW).1.active = false ∧
      (launch orcFail initialStats reqW).1.currentCampaign = none) ∧
    (launch orcOk initialStats reqNoTmpl).1 = initialStats := by
  constructor
  · exact (c9_terminal_paths_clear_state orcFail initialStats reqW).1 (by decide)
  · exact (c9_terminal_paths_clear_state orcOk initialStats reqNoTmpl).2 "Missing required fields" (by decide)

/-- Witness for C10 at a one-recipient happy-path run from fresh
stats. -/
theorem c10_progress_sent_fields_witness :
    Event.progress 100 1 1 1 1 0 "h.io" 0 0 1 1 ∈ launchEvents orcOk initialStats reqW ∧
    (1 : ℕ) = initialStats.sent + 1 ∧ ((1 : ℕ) = 1 ↔ initialStats.sent = 0) := by
  have h := c10_progress_sent_fields orcOk initialStats reqW
    (Event.progress 100 1 1 1 1 0 "h.io" 0 0 1 1) (1, 1) (by decide) (by decide)
  exact ⟨by decide, h.1, h.2⟩

end MagicPro
